import Mathlib

/-!
# Verification of the plasticine-cms versioned schema / migration engine

Shallow embedding of `src/packages/plasticine/src/config/schema.ts`
(`schema`, `createVersioned.parse`, `createVersioned.version`) and of
`defineConfig.parseCollection`, together with theorems settling the
frozen claims about the versioned-schema parser.

Modelling choices:
* A JSON-like value is `JValue`.
* A valibot schema is opaque to the engine: `schema.ts` only ever calls
  `v.safeParse(schema, value)` and reads `success` / `output` / `issues`.
  We therefore embed a schema as a deterministic function
  `JValue → Except (List Issue) JValue` (failure carries the issue list,
  success carries the possibly-coerced output), exactly the surface the
  engine observes.
* A migration `transform` is a plain function that may throw; we embed it
  as `JValue → Except Exn JValue`, where `.error e` models the function
  throwing the JS exception `e`.  `parse` applies transforms with `bind`,
  mirroring the fact that a thrown exception aborts the `reduce` at once
  and escapes `parse` uncaught; the escaped exception is reported as the
  distinguished outcome `ParseError.thrown e`, disjoint from the
  structured `ParseError.schemaError` form.
-/

namespace Plasticine

/-- A deserialized JSON-like value (the raw values fed to `parse`). -/
inductive JValue where
  | null : JValue
  | bool : Bool → JValue
  | num : Int → JValue
  | str : String → JValue
  | arr : List JValue → JValue
  | obj : List (String × JValue) → JValue

/-- A single structured validation issue (valibot issue), kept opaque. -/
abbrev Issue := String

/-- A JS exception value thrown by a migration transform. -/
abbrev Exn := String

/-- A valibot schema, as observed by the engine through `v.safeParse`:
a deterministic check returning either the (possibly coerced) output or a
list of issues. -/
structure Schema where
  run : JValue → Except (List Issue) JValue

/-- One historical version entry, as stored by `createVersioned`:
`{ schema, transform }` (schema.ts lines 19–25). -/
structure Version where
  schema : Schema
  transform : JValue → Except Exn JValue

/-- The state captured by `createVersioned(versions, currentSchema)`
(schema.ts line 78): the `versions` array is ordered newest historical
entry first, exactly as built by `version()` which prepends
`{ schema: currentSchema, transform }` (schema.ts line 123). -/
structure Chain where
  versions : List Version
  current : Schema

/-- Outcome of a failed `parse` call: either the `SchemaError` thrown at
schema.ts line 115 (carrying the collected issue lists), or an exception
thrown by a migration transform escaping `parse` uncaught. -/
inductive ParseError where
  | schemaError : List (List Issue) → ParseError
  | thrown : Exn → ParseError
  deriving DecidableEq

/-- The `for (const version of versions)` loop of `parse`
(schema.ts lines 98–106): walk the versions newest-to-oldest, recording
each `safeParse` result, stopping at the first success.  Returns the
recorded `versionResults` and the `foundValidVersion` flag. -/
def tryVersions (versions : List Version) (value : JValue) :
    List (Version × Except (List Issue) JValue) × Bool :=
  match versions with
  | [] => ([], false)
  | ver :: rest =>
    match ver.schema.run value with
    | .ok out => ([(ver, .ok out)], true)
    | .error issues =>
      let (tail, found) := tryVersions rest value
      ((ver, .error issues) :: tail, found)

/-- The expression `versionResults.toReversed().reduce((val, { transform }) => transform(val), value)`
(schema.ts lines 110–112): apply the recorded entries' transforms in
reverse recording order, starting from the raw `value`; a throw aborts the
remaining applications. -/
def applyTransforms (results : List (Version × Except (List Issue) JValue))
    (value : JValue) : Except Exn JValue :=
  results.reverse.foldl (fun acc vr => acc.bind vr.1.transform) (.ok value)

/-- The expression `versionResults.map(({ issues }) => issues).filter(v => v !== undefined)`
(schema.ts lines 116–118): the issue lists of the failed entries, in
recording order. -/
def collectIssues (results : List (Version × Except (List Issue) JValue)) :
    List (List Issue) :=
  results.filterMap fun vr =>
    match vr.2 with
    | .error issues => some issues
    | .ok _ => none

/-- The method `createVersioned(...).parse(value)` (schema.ts lines 87–120):
try the current schema first; otherwise walk the historical versions
newest-to-oldest; on a match replay the recorded transforms from the raw
value; otherwise throw `SchemaError` with the collected issue lists. -/
def Chain.parse (c : Chain) (value : JValue) : Except ParseError JValue :=
  match c.current.run value with
  | .ok out => .ok out
  | .error _curIssues =>
    let (versionResults, foundValidVersion) := tryVersions c.versions value
    if foundValidVersion then
      match applyTransforms versionResults value with
      | .ok migrated => .ok migrated
      | .error e => .error (.thrown e)
    else
      .error (.schemaError (collectIssues versionResults))

/-- The method `createVersioned(...).version(newSchema, transform)`
(schema.ts lines 121–126): build a new chain whose versions array is
`[{ schema: currentSchema, transform }, ...versions]` — a fresh array
spreading the old one, never mutating it. -/
def Chain.version (c : Chain) (newSchema : Schema)
    (transform : JValue → Except Exn JValue) : Chain :=
  { versions := ⟨c.current, transform⟩ :: c.versions, current := newSchema }

/-- The method `schema(initialSchema).parse(value)` (schema.ts lines 62–68): the
zero-history chain is a plain single-schema validator; on failure it
throws `SchemaError` with exactly the one issue list of `initialSchema`. -/
def schemaParse (initialSchema : Schema) (value : JValue) :
    Except ParseError JValue :=
  match initialSchema.run value with
  | .ok out => .ok out
  | .error issues => .error (.schemaError [issues])

/-- The method `schema(initialSchema).version(newSchema, transform)`
(schema.ts lines 69–74): builds `createVersioned([{ schema: initialSchema,
transform }], newSchema)`. -/
def schemaVersion (initialSchema : Schema) (newSchema : Schema)
    (transform : JValue → Except Exn JValue) : Chain :=
  { versions := [⟨initialSchema, transform⟩], current := newSchema }

/-- A `VersionedSchema` value as held in a `defineConfig` collections map:
either the zero-history object returned by `schema(s)` or a
`createVersioned` chain. -/
inductive VSchema where
  | plain : Schema → VSchema
  | versioned : Chain → VSchema

/-- The call `versionedSchema.parse(data)` dispatched on which closure the
collection holds. -/
def VSchema.parse : VSchema → JValue → Except ParseError JValue
  | .plain s, v => schemaParse s v
  | .versioned c, v => c.parse v

/-- Errors surfaced by `defineConfig.parseCollection`: either the
`Unknown collection` error thrown at part_013 line 38, or a parse error
propagated from the versioned schema. -/
inductive AppError where
  | unknownCollection : String → AppError
  | parse : ParseError → AppError

/-- The method `defineConfig(collections).parseCollection(collection, data)`
(part_013 lines 35–41): look the collection up by name; if absent throw
`Unknown collection: name`; otherwise return `versionedSchema.parse(data)`
unchanged. -/
def parseCollection (collections : List (String × VSchema)) (name : String)
    (data : JValue) : Except AppError JValue :=
  match collections.lookup name with
  | none => .error (.unknownCollection name)
  | some vs => (vs.parse data).mapError .parse

/-! ## Spec-side helper definitions

Used only to state properties about the embedded engine. -/

/-- The issue list carried by a failed validation (empty for a success;
only ever applied to failures). -/
def issuesOf : Except (List Issue) JValue → List Issue
  | .error issues => issues
  | .ok _ => []

/-- Replay the transforms of `entries` in forward chronological order.
`createVersioned` stores its versions array newest historical entry
first, so chronological (oldest-to-newest) order is the reverse of
storage order; a throw aborts the remaining applications. -/
def chronoApply (entries : List Version) (value : JValue) : Except Exn JValue :=
  entries.reverse.foldl (fun acc ver => acc.bind ver.transform) (.ok value)

/-! ## Concrete schemas, transforms and chains

Concrete instances used to witness the theorems' hypotheses and to
exhibit counterexamples.  `sV0` / `sV1` / `addPublished` mirror the
spec's example scenario (v0 `{slug, title}` → v1 adds `published`). -/

/-- Example schema v0: an object with string `slug` and `title`. -/
def sV0 : Schema :=
  ⟨fun value =>
    match value with
    | .obj fields =>
      match fields.lookup "slug", fields.lookup "title" with
      | some (.str _), some (.str _) => .ok (.obj fields)
      | _, _ => .error ["v0: slug and title must be strings"]
    | _ => .error ["v0: expected an object"]⟩

/-- Example schema v1: an object with string `slug`, `title` and boolean
`published`. -/
def sV1 : Schema :=
  ⟨fun value =>
    match value with
    | .obj fields =>
      match fields.lookup "slug", fields.lookup "title", fields.lookup "published" with
      | some (.str _), some (.str _), some (.bool _) => .ok (.obj fields)
      | _, _, _ => .error ["v1: slug, title and published required"]
    | _ => .error ["v1: expected an object"]⟩

/-- The spec example's migration `old => ({...old, published: false})`. -/
def addPublished : JValue → Except Exn JValue := fun value =>
  match value with
  | .obj fields => .ok (.obj (fields ++ [("published", .bool false)]))
  | other => .ok other

/-- The spec example chain: `schema(sV0).version(sV1, addPublished)`. -/
def chain01 : Chain := schemaVersion sV0 sV1 addPublished

/-- The spec example's failing input `{title: "Hi"}` (missing `slug`). -/
def exTitleOnly : JValue := .obj [("title", .str "Hi")]

/-- A schema accepting exactly the number `k`, output unchanged. -/
def exactNum (k : Int) (tag : Issue) : Schema :=
  ⟨fun value =>
    match value with
    | .num n => if n = k then .ok (.num n) else .error [tag]
    | _ => .error [tag]⟩

/-- A schema accepting any number, output unchanged. -/
def anyNum (tag : Issue) : Schema :=
  ⟨fun value =>
    match value with
    | .num n => .ok (.num n)
    | _ => .error [tag]⟩

/-- A schema accepting any string, output unchanged. -/
def onlyStr (tag : Issue) : Schema :=
  ⟨fun value =>
    match value with
    | .str s => .ok (.str s)
    | _ => .error [tag]⟩

/-- A coercing schema: accepts any number `n` and outputs `10 * n`. -/
def timesTen (tag : Issue) : Schema :=
  ⟨fun value =>
    match value with
    | .num n => .ok (.num (10 * n))
    | _ => .error [tag]⟩

/-- A migration adding one to a number. -/
def addOne : JValue → Except Exn JValue := fun value =>
  match value with
  | .num n => .ok (.num (n + 1))
  | other => .ok other

/-- A broken migration: maps every value to the number `5`. -/
def toFive : JValue → Except Exn JValue := fun _ => .ok (.num 5)

/-- A throwing migration: models `transform` raising the exception
`"boom"`. -/
def throwBoom : JValue → Except Exn JValue := fun _ => .error "boom"

/-- A three-generation chain `schema(exact 0).version(exact 1, addOne)
.version(exact 2, addOne)`: values migrate 0 → 1 → 2. -/
def chain3 : Chain :=
  (schemaVersion (exactNum 0 "s0: expected 0") (exactNum 1 "s1: expected 1") addOne).version
    (exactNum 2 "s2: expected 2") addOne

/-- A chain whose two historical schemas both accept any number
(ambiguous overlap) while the current schema accepts only strings. -/
def chainAmb : Chain :=
  (schemaVersion (anyNum "s0: expected a number") (anyNum "s1: expected a number") addOne).version
    (onlyStr "s2: expected a string") addOne

/-- A chain whose historical schema coerces (multiplies by ten) and whose
migration adds one. -/
def chainCoerce : Chain :=
  schemaVersion (timesTen "old: expected a number") (exactNum 1 "cur: expected 1") addOne

/-- A chain whose single migration throws. -/
def chainThrow : Chain :=
  schemaVersion (exactNum 0 "s0: expected 0") (exactNum 1 "s1: expected 1") throwBoom

/-- A chain whose single migration is broken: it outputs `5`, which the
current schema rejects. -/
def chainBadT : Chain :=
  schemaVersion (exactNum 0 "s0: expected 0") (exactNum 1 "s1: expected 1") toFive

/-- A one-collection registry for the `parseCollection` witness. -/
def demoConfig : List (String × VSchema) := [("posts", .versioned chain3)]

/-! ## Helper lemmas -/

/-- When every version's schema rejects the value, the search loop walks
the whole array, records every result and reports no match. -/
theorem tryVersions_all_fail (versions : List Version) (value : JValue)
    (hall : ∀ ver ∈ versions, ∃ issues, ver.schema.run value = .error issues) :
    tryVersions versions value =
      (versions.map fun ver => (ver, ver.schema.run value), false) := by
  induction versions with
  | nil => rfl
  | cons ver rest ih =>
    obtain ⟨issues, hissues⟩ := hall ver (List.mem_cons_self ver rest)
    have hrest := ih fun w hw => hall w (List.mem_cons_of_mem ver hw)
    simp [tryVersions, hissues, hrest]

/-- When every schema before `m` rejects the value and `m`'s schema
accepts it, the search loop records the failures followed by `m`'s
success and stops there: entries after `m` are never consulted. -/
theorem tryVersions_found (pre : List Version) (m : Version) (post : List Version)
    (value : JValue)
    (hpre : ∀ ver ∈ pre, ∃ issues, ver.schema.run value = .error issues)
    (o : JValue) (hm : m.schema.run value = .ok o) :
    tryVersions (pre ++ m :: post) value =
      ((pre.map fun ver => (ver, ver.schema.run value)) ++ [(m, .ok o)], true) := by
  induction pre with
  | nil => simp [tryVersions, hm]
  | cons ver rest ih =>
    obtain ⟨issues, hissues⟩ := hpre ver (List.mem_cons_self ver rest)
    have hrest := ih fun w hw => hpre w (List.mem_cons_of_mem ver hw)
    simp [tryVersions, hissues, hrest]

/-- Folding `bind` over transforms from an error (a thrown exception)
leaves the error unchanged: once a transform throws, nothing later runs. -/
theorem foldl_bind_error (l : List Version) (e : Exn) :
    l.foldl (fun acc ver => acc.bind ver.transform) (Except.error e) = .error e := by
  induction l with
  | nil => rfl
  | cons ver rest ih => simpa using ih

/-- The reduce over recorded results ignores the recorded parse results:
it is the chronological replay of the recorded entries' transforms. -/
theorem applyTransforms_eq_chrono
    (results : List (Version × Except (List Issue) JValue)) (value : JValue) :
    applyTransforms results value = chronoApply (results.map Prod.fst) value := by
  simp [applyTransforms, chronoApply, ← List.map_reverse, List.foldl_map]

/-- Chronological replay of `pre ++ [m]` first applies `m`'s transform to
the starting value, then replays `pre` on its output. -/
theorem chronoApply_append_singleton (pre : List Version) (m : Version)
    (value : JValue) :
    chronoApply (pre ++ [m]) value =
      (m.transform value).bind fun w => chronoApply pre w := by
  have hrev : (pre ++ [m]).reverse = m :: pre.reverse := by simp
  rw [chronoApply, hrev, List.foldl_cons]
  have hinit : (Except.ok value : Except Exn JValue).bind m.transform
      = m.transform value := rfl
  rw [hinit]
  cases h : m.transform value with
  | ok w => rfl
  | error e => exact foldl_bind_error pre.reverse e

/-- On all-failure results, the collected issue lists are exactly the
versions' issue lists, in recording order. -/
theorem collectIssues_map (versions : List Version) (value : JValue)
    (hall : ∀ ver ∈ versions, ∃ issues, ver.schema.run value = .error issues) :
    collectIssues (versions.map fun ver => (ver, ver.schema.run value)) =
      versions.map fun ver => issuesOf (ver.schema.run value) := by
  induction versions with
  | nil => rfl
  | cons ver rest ih =>
    obtain ⟨issues, hissues⟩ := hall ver (List.mem_cons_self ver rest)
    have hrest := ih fun w hw => hall w (List.mem_cons_of_mem ver hw)
    rw [List.map_cons, List.map_cons, collectIssues, List.filterMap_cons]
    rw [collectIssues] at hrest
    simp only [hissues, issuesOf, hrest]

/-- Master lemma for the migration path: if the current schema rejects
the value, every historical entry before `m` rejects it and `m` accepts
it, then `parse` replays the transforms of `pre ++ [m]` chronologically
from the raw value, reporting a throw as an escaped exception. -/
theorem parse_found (c : Chain) (value : JValue) (pre : List Version)
    (m : Version) (post : List Version)
    (hsplit : c.versions = pre ++ m :: post)
    (hcur : ∃ issues, c.current.run value = .error issues)
    (hpre : ∀ ver ∈ pre, ∃ issues, ver.schema.run value = .error issues)
    (hm : ∃ o, m.schema.run value = .ok o) :
    c.parse value = (chronoApply (pre ++ [m]) value).mapError ParseError.thrown := by
  obtain ⟨curIssues, hcurIssues⟩ := hcur
  obtain ⟨o, ho⟩ := hm
  have hto := tryVersions_found pre m post value hpre o ho
  have hfst : ∀ l : List Version,
      List.map (Prod.fst ∘ fun ver => (ver, ver.schema.run value)) l = l := by
    intro l
    induction l with
    | nil => rfl
    | cons a t ih =>
      rw [List.map_cons, ih]
      rfl
  simp only [Chain.parse, hcurIssues, hto, hsplit, if_true, applyTransforms_eq_chrono,
    List.map_append, List.map_map, List.map_cons, List.map_nil, hfst]
  cases chronoApply (pre ++ [m]) value with
  | ok w => rfl
  | error e => rfl

/-- Master lemma for total failure: if the current schema and every
historical entry reject the value, `parse` throws the aggregated
`SchemaError` carrying exactly the historical entries' issue lists, in
newest-to-oldest order; the current schema's issues are dropped. -/
theorem parse_no_match (c : Chain) (value : JValue)
    (hcur : ∃ issues, c.current.run value = .error issues)
    (hall : ∀ ver ∈ c.versions, ∃ issues, ver.schema.run value = .error issues) :
    c.parse value =
      .error (.schemaError (c.versions.map fun ver => issuesOf (ver.schema.run value))) := by
  obtain ⟨curIssues, hcurIssues⟩ := hcur
  rw [Chain.parse, hcurIssues, tryVersions_all_fail c.versions value hall]
  simp [collectIssues_map c.versions value hall]

/-! ## Claims -/

/-- Claim C1 (corrected): when the raw value conforms to no schema in the
chain, `parse` fails with the aggregated error carrying one issue list
per **historical** entry, ordered newest to oldest, so its issue-list
count equals the number of historical entries.  The current schema's
issues are dropped (schema.ts lines 115–119 collect only
`versionResults`), so the count is NOT "historical plus one" and the
current schema's issues do not lead the list. -/
theorem no_match_issue_lists_per_historical_entry (c : Chain) (value : JValue)
    (hcur : ∃ issues, c.current.run value = .error issues)
    (hall : ∀ ver ∈ c.versions, ∃ issues, ver.schema.run value = .error issues) :
    c.parse value =
      .error (.schemaError (c.versions.map fun ver => issuesOf (ver.schema.run value))) ∧
    (c.versions.map fun ver => issuesOf (ver.schema.run value)).length =
      c.versions.length :=
  ⟨parse_no_match c value hcur hall, by simp⟩

/-- Claim C1, counterexample: the spec example input `{title: "Hi"}`
against the v0→v1 chain yields a `SchemaError` with exactly one issue
list (v0's), not the claimed two (current plus historical). -/
theorem no_match_drops_current_issues_cex :
    chain01.parse exTitleOnly =
      .error (.schemaError [["v0: slug and title must be strings"]]) ∧
    ([["v0: slug and title must be strings"]] : List (List Issue)).length ≠
      chain01.versions.length + 1 :=
  ⟨rfl, by decide⟩

/-- Claim C1, witness: the amended theorem applied to the spec example
chain and input. -/
theorem no_match_issue_lists_witness :
    chain01.parse exTitleOnly =
      .error (.schemaError (chain01.versions.map fun ver =>
        issuesOf (ver.schema.run exTitleOnly))) ∧
    (chain01.versions.map fun ver => issuesOf (ver.schema.run exTitleOnly)).length =
      chain01.versions.length :=
  no_match_issue_lists_per_historical_entry chain01 exTitleOnly
    ⟨["v1: slug, title and published required"], rfl⟩
    (fun ver hver => by
      have hv : ver = ⟨sV0, addPublished⟩ := by
        simpa [chain01, schemaVersion] using hver
      subst hv
      exact ⟨["v0: slug and title must be strings"], rfl⟩)

/-- Claim C2 (confirmed): when the raw value conforms to the current
schema, `parse` returns the validator's output immediately; no
migration transform is consulted (the conclusion does not depend on
`c.versions`). -/
theorem current_match_wins (c : Chain) (value out : JValue)
    (h : c.current.run value = .ok out) : c.parse value = .ok out := by
  simp [Chain.parse, h]

/-- Claim C2, witness: an already-current value parses to itself even
though the chain has two historical entries. -/
theorem current_match_wins_witness : chain3.parse (.num 2) = .ok (.num 2) :=
  current_match_wins chain3 (.num 2) (.num 2) rfl

/-- Claim C3 (corrected): when the value fails the current schema and
every historical entry except the oldest, `parse` replays ALL N
transforms in forward chronological order (the versions array is stored
newest first, so `chronoApply` folds its reverse: oldest entry's
transform first, newest entry's transform last) starting from the raw
value, and returns that composition.  The final result is NOT
re-validated against the current schema, so the claim's last clause
fails for incorrect transforms (see the counterexample). -/
theorem full_chain_replay (c : Chain) (value : JValue) (pre : List Version)
    (m : Version)
    (hsplit : c.versions = pre ++ [m])
    (hcur : ∃ issues, c.current.run value = .error issues)
    (hpre : ∀ ver ∈ pre, ∃ issues, ver.schema.run value = .error issues)
    (hm : ∃ o, m.schema.run value = .ok o) :
    c.parse value = (chronoApply c.versions value).mapError ParseError.thrown := by
  have h := parse_found c value pre m [] (by rw [hsplit]) hcur hpre hm
  rw [hsplit]
  exact h

/-- Claim C3, counterexample: a broken transform whose output fails the
current schema — `parse` still succeeds with that output, so the final
result does not validate against the current schema. -/
theorem full_chain_replay_no_revalidation_cex :
    chainBadT.parse (.num 0) = .ok (.num 5) ∧
    chainBadT.current.run (.num 5) = .error ["s1: expected 1"] :=
  ⟨rfl, rfl⟩

/-- Claim C3, witness: a value shaped for the oldest generation of the
three-generation chain migrates through both transforms, 0 → 1 → 2. -/
theorem full_chain_replay_witness : chain3.parse (.num 0) = .ok (.num 2) := by
  have h := full_chain_replay chain3 (.num 0)
      [⟨exactNum 1 "s1: expected 1", addOne⟩] ⟨exactNum 0 "s0: expected 0", addOne⟩
      rfl ⟨["s2: expected 2"], rfl⟩
      (fun ver hver => by
        rw [List.mem_singleton] at hver
        subst hver
        exact ⟨["s1: expected 1"], rfl⟩)
      ⟨.num 0, rfl⟩
  exact h.trans rfl

/-- Claim C4 (confirmed): when the value fails the current schema but
matches several historical schemas, the walk stops at the newest
matching entry `m`; only the transforms of `m` and the newer entries
`pre` are applied — the further match in `post` is never reached. -/
theorem newest_match_priority (c : Chain) (value : JValue) (pre : List Version)
    (m : Version) (post : List Version)
    (hsplit : c.versions = pre ++ m :: post)
    (hcur : ∃ issues, c.current.run value = .error issues)
    (hpre : ∀ ver ∈ pre, ∃ issues, ver.schema.run value = .error issues)
    (hm : ∃ o, m.schema.run value = .ok o)
    (_hambiguous : ∃ m2 ∈ post, ∃ o2, m2.schema.run value = .ok o2) :
    c.parse value = (chronoApply (pre ++ [m]) value).mapError ParseError.thrown :=
  parse_found c value pre m post hsplit hcur hpre hm

/-- Claim C4, witness: both historical schemas of `chainAmb` accept
`7`; only the newest entry's transform runs, giving `8` (a full replay
would give `9`). -/
theorem newest_match_priority_witness : chainAmb.parse (.num 7) = .ok (.num 8) := by
  have h := newest_match_priority chainAmb (.num 7) []
      ⟨anyNum "s1: expected a number", addOne⟩ [⟨anyNum "s0: expected a number", addOne⟩]
      rfl ⟨["s2: expected a string"], rfl⟩
      (fun ver hver => absurd hver (List.not_mem_nil ver))
      ⟨.num 7, rfl⟩
      ⟨⟨anyNum "s0: expected a number", addOne⟩, List.mem_singleton_self _, .num 7, rfl⟩
  exact h.trans rfl

/-- Claim C5 (confirmed): `version` builds a new chain — the new current
schema, and a versions array that prepends the old current schema with
the new transform onto the untouched old versions list (the source
spreads the old array into a fresh one, never mutating it) — and the
original chain's `parse` is still determined by its own unchanged
fields. -/
theorem version_append_immutable (c : Chain) (s : Schema)
    (t : JValue → Except Exn JValue) (value : JValue) :
    (c.version s t).current = s ∧
    (c.version s t).versions = ⟨c.current, t⟩ :: c.versions ∧
    (c.version s t).versions.length = c.versions.length + 1 ∧
    Chain.parse ⟨c.versions, c.current⟩ value = c.parse value :=
  ⟨rfl, rfl, rfl, rfl⟩

/-- Claim C6 (confirmed): the zero-history object built by `schema(s)`
is a plain single-schema validator: success returns the validator
output; failure throws the aggregated error with exactly one issue list,
the issues of validating the value against `s`. -/
theorem zero_history_single_validator (s : Schema) (value : JValue) :
    (∀ out, s.run value = .ok out → schemaParse s value = .ok out) ∧
    (∀ issues, s.run value = .error issues →
      ∃ ls, schemaParse s value = .error (.schemaError ls) ∧
        ls.length = 1 ∧ ls = [issues]) := by
  constructor
  · intro out h
    simp [schemaParse, h]
  · intro issues h
    refine ⟨[issues], ?_, rfl, rfl⟩
    simp [schemaParse, h]

/-- Claim C6, witness: the single-schema validator rejecting the spec
example's `{title: "Hi"}` with one issue list. -/
theorem zero_history_witness :
    schemaParse sV0 exTitleOnly =
      .error (.schemaError [["v0: slug and title must be strings"]]) := by
  obtain ⟨ls, hparse, hlen, hls⟩ :=
    (zero_history_single_validator sV0 exTitleOnly).2
      ["v0: slug and title must be strings"] rfl
  rw [hparse, hls]

/-- Claim C7 (confirmed): on the migration path the transform chain is
applied to the original raw `value` — the conclusion applies
`m.transform` to `value`, and the matched schema's validated output
`matchedOut` does not occur in it, so any coercion the matched
historical schema performs is skipped (whereas a current-schema match
returns the validator's coerced output, see `current_match_wins`). -/
theorem migration_applies_to_raw_input (c : Chain) (value matchedOut : JValue)
    (pre : List Version) (m : Version) (post : List Version)
    (hsplit : c.versions = pre ++ m :: post)
    (hcur : ∃ issues, c.current.run value = .error issues)
    (hpre : ∀ ver ∈ pre, ∃ issues, ver.schema.run value = .error issues)
    (hm : m.schema.run value = .ok matchedOut) :
    c.parse value =
      ((m.transform value).bind fun w => chronoApply pre w).mapError ParseError.thrown := by
  have h := parse_found c value pre m post hsplit hcur hpre ⟨matchedOut, hm⟩
  rw [h, chronoApply_append_singleton]

/-- Claim C7, witness: the matched historical schema coerces `3` to
`30`, yet the migration runs on the raw `3` and yields `4` (it would
yield `31` if it ran on the coerced output). -/
theorem migration_applies_to_raw_input_witness :
    chainCoerce.parse (.num 3) = .ok (.num 4) ∧
    (timesTen "old: expected a number").run (.num 3) = .ok (.num 30) := by
  constructor
  · have h := migration_applies_to_raw_input chainCoerce (.num 3) (.num 30) []
        ⟨timesTen "old: expected a number", addOne⟩ [] rfl
        ⟨["cur: expected 1"], rfl⟩
        (fun ver hver => absurd hver (List.not_mem_nil ver)) rfl
    exact h.trans rfl
  · rfl

/-- Claim C8 (confirmed): `parseCollection` fails with the
unknown-collection error (the source throws `Error("Unknown collection:
name")`) exactly when the name is absent, and otherwise returns exactly
the versioned schema's `parse` result on the value. -/
theorem parseCollection_lookup_spec (collections : List (String × VSchema))
    (name : String) (data : JValue) :
    (collections.lookup name = none →
      parseCollection collections name data = .error (.unknownCollection name)) ∧
    (∀ vs, collections.lookup name = some vs →
      parseCollection collections name data = (vs.parse data).mapError AppError.parse) := by
  constructor
  · intro h
    simp [parseCollection, h]
  · intro vs h
    simp [parseCollection, h]

/-- Claim C8, witness: lookups against a one-collection registry, one
missing and one present. -/
theorem parseCollection_lookup_witness :
    parseCollection demoConfig "missing" (.num 0) =
      .error (.unknownCollection "missing") ∧
    parseCollection demoConfig "posts" (.num 0) =
      ((VSchema.versioned chain3).parse (.num 0)).mapError AppError.parse :=
  ⟨(parseCollection_lookup_spec demoConfig "missing" (.num 0)).1 rfl,
   (parseCollection_lookup_spec demoConfig "posts" (.num 0)).2 _ rfl⟩

/-- Claim C9 (confirmed): a throwing transform on the migration path
escapes `parse` unchanged — the result is the escaped exception
(`ParseError.thrown`, our model of an uncaught JS exception), which is
never the structured `schemaError` form. -/
theorem transform_exn_propagates (c : Chain) (value : JValue) (pre : List Version)
    (m : Version) (post : List Version) (e : Exn)
    (hsplit : c.versions = pre ++ m :: post)
    (hcur : ∃ issues, c.current.run value = .error issues)
    (hpre : ∀ ver ∈ pre, ∃ issues, ver.schema.run value = .error issues)
    (hm : ∃ o, m.schema.run value = .ok o)
    (hthrow : chronoApply (pre ++ [m]) value = .error e) :
    c.parse value = .error (.thrown e) ∧
    ∀ issueLists, ParseError.thrown e ≠ ParseError.schemaError issueLists := by
  refine ⟨?_, fun issueLists h => ParseError.noConfusion h⟩
  rw [parse_found c value pre m post hsplit hcur hpre hm, hthrow]
  rfl

/-- Claim C9, witness: the chain whose single migration throws
`"boom"`. -/
theorem transform_exn_propagates_witness :
    chainThrow.parse (.num 0) = .error (.thrown "boom") :=
  (transform_exn_propagates chainThrow (.num 0) []
      ⟨exactNum 0 "s0: expected 0", throwBoom⟩ [] "boom"
      rfl ⟨["s1: expected 1"], rfl⟩
      (fun ver hver => absurd hver (List.not_mem_nil ver))
      ⟨.num 0, rfl⟩ rfl).1

/-- Claim C10 (corrected): `parse` is idempotent on its output only when
the current schema accepts that output unchanged; then step 1's priority
returns it immediately.  In general a successful migration's output need
not conform to any schema in the chain, and feeding it back fails (see
the counterexample). -/
theorem parse_idempotent_on_conforming_output (c : Chain) (value result : JValue)
    (hfirst : c.parse value = .ok result)
    (hfix : c.current.run result = .ok result) :
    c.parse result = c.parse value := by
  rw [hfirst]
  simp [Chain.parse, hfix]

/-- Claim C10, counterexample: `parse` succeeds on `0` with output `5`,
but feeding `5` back through `parse` fails — so
`parse(chain, parse(chain, v)) = parse(chain, v)` does not hold for
every value on which `parse` succeeds. -/
theorem parse_not_idempotent_cex :
    chainBadT.parse (.num 0) = .ok (.num 5) ∧
    chainBadT.parse (.num 5) = .error (.schemaError [["s0: expected 0"]]) ∧
    (Except.error (ParseError.schemaError [["s0: expected 0"]]) :
      Except ParseError JValue) ≠ .ok (.num 5) :=
  ⟨rfl, rfl, fun h => Except.noConfusion h⟩

/-- Claim C10, witness: `0` migrates to `2`, which the current schema
accepts unchanged, so re-parsing gives the same result. -/
theorem parse_idempotent_witness : chain3.parse (.num 2) = chain3.parse (.num 0) :=
  parse_idempotent_on_conforming_output chain3 (.num 0) (.num 2) rfl rfl

end Plasticine
